import Mathlib

/-!
Verification of the simple-interpreter front end.

A shallow embedding of the repository's scanner (`lexer/lexer.go`),
syntax-tree model (`ast/ast.go`) and parser (`parser/parser.go`),
with theorems settling the frozen claims about the specification.

Go bytes are modelled as `Char` (the inputs of interest are ASCII); the
Go sentinel byte `0` is the character `'\x00'`.  Go slices
`input[a:b]` are modelled twice: `sliceStr` is the sliced value under
Go's slice precondition `a ≤ b ≤ length`, and `sliceStrChecked` carries
the bounds check itself, returning `none` exactly where Go panics.  The
scanner is embedded both as the total `NextToken` (adequate at the
claims' concrete in-bounds inputs) and as the panic-aware
`NextTokenChecked`, on which the termination claims are settled —
`readString` really can overrun by one byte when a string literal's
opening quote is the last byte of the input, a panic in Go.  Loops are
modelled as fueled recursions whose fuel is a measure proved sufficient
(each loop's exit condition is proved to hold at the returned state),
mirroring the specification's own argument that every token category
advances the cursor by at least one character.
-/

namespace SimpleInterp

/-- Modelled from the spec: the repository's `token` package is not under
`src/`; §3 of the spec fixes the enumeration of token categories
(`IDENT`, `INT`, `STRING`, operators, delimiters, keywords, `EOF`,
`ILLEGAL`). -/
inductive TokenType where
  | IDENT | INT | STRING
  | ASSIGN | PLUS | MINUS | ASTERISK | SLASH | BANG
  | EQ | NOT_EQ | LT | GT
  | LPAREN | RPAREN | LBRACE | RBRACE | LBRACKET | RBRACKET
  | COMMA | SEMICOLON
  | LET | RETURN | FUNCTION | IF | ELSE | TRUE | FALSE
  | EOF | ILLEGAL
  deriving DecidableEq, Repr

/-- Modelled from the spec: the display name of a token category, as used
in diagnostic messages ("expected next token to be X, got Y instead"
with `X`, `Y` the category names of §3); the `token` package that renders
categories is not under `src/`. -/
def ttString : TokenType → String
  | .IDENT => "IDENT" | .INT => "INT" | .STRING => "STRING"
  | .ASSIGN => "ASSIGN" | .PLUS => "PLUS" | .MINUS => "MINUS"
  | .ASTERISK => "ASTERISK" | .SLASH => "SLASH" | .BANG => "BANG"
  | .EQ => "EQ" | .NOT_EQ => "NOT_EQ" | .LT => "LT" | .GT => "GT"
  | .LPAREN => "LPAREN" | .RPAREN => "RPAREN"
  | .LBRACE => "LBRACE" | .RBRACE => "RBRACE"
  | .LBRACKET => "LBRACKET" | .RBRACKET => "RBRACKET"
  | .COMMA => "COMMA" | .SEMICOLON => "SEMICOLON"
  | .LET => "LET" | .RETURN => "RETURN" | .FUNCTION => "FUNCTION"
  | .IF => "IF" | .ELSE => "ELSE" | .TRUE => "TRUE" | .FALSE => "FALSE"
  | .EOF => "EOF" | .ILLEGAL => "ILLEGAL"

/-- A token: category plus literal text (`token.Token`). -/
structure Token where
  type : TokenType
  literal : String
  deriving DecidableEq, Repr

/-- Modelled from the spec: the fixed keyword table of §6
(`token.LookupIdent`; the `token` package is not under `src/`).
Identifier text not in the table is classified `IDENT`. -/
def LookupIdent (s : String) : TokenType :=
  if s = "fn" then .FUNCTION
  else if s = "let" then .LET
  else if s = "true" then .TRUE
  else if s = "false" then .FALSE
  else if s = "if" then .IF
  else if s = "else" then .ELSE
  else if s = "return" then .RETURN
  else .IDENT

/-! ## Scanner (`lexer/lexer.go`) -/

/-- Source `lexer.Lexer`: input text, cursor (`position`), read cursor
(`readPosition`) and current character (`ch`, `0` at end of input). -/
structure Lexer where
  input : List Char
  position : Nat
  readPosition : Nat
  ch : Char
  deriving DecidableEq, Repr

/-- The byte of `inp` at index `i`, with the Go sentinel `0` beyond the
end (matches the guarded reads in `readChar`/`peekChar`). -/
def charAt (inp : List Char) (i : Nat) : Char :=
  inp.getD i '\x00'

/-- Source `Lexer.readChar`. -/
def readChar (l : Lexer) : Lexer :=
  { l with
    ch := if l.readPosition ≥ l.input.length then '\x00'
          else charAt l.input l.readPosition
    position := l.readPosition
    readPosition := l.readPosition + 1 }

/-- Source `Lexer.peekChar`. -/
def peekChar (l : Lexer) : Char :=
  if l.readPosition ≥ l.input.length then '\x00'
  else charAt l.input l.readPosition

/-- Source `lexer.New`: the Go literal initializes `position`, `readPosition`
and `ch` to their zero values, then calls `readChar` once. -/
def lexerNew (inp : List Char) : Lexer :=
  readChar { input := inp, position := 0, readPosition := 0, ch := '\x00' }

/-- Go slice `inp[a:b]` as a string, under Go's slice precondition
`a ≤ b ≤ length` (outside it Go panics — `sliceStrChecked` below models
the bounds check; this total version is the value Go produces when the
check passes). -/
def sliceStr (inp : List Char) (a b : Nat) : String :=
  String.mk ((inp.drop a).take (b - a))

/-- Source `isChar` of the source: identifier characters. -/
def isChar (c : Char) : Bool :=
  ('a' ≤ c && c ≤ 'z') || ('A' ≤ c && c ≤ 'Z') || c = '_'

/-- Source `isNum` of the source: digit characters. -/
def isNum (c : Char) : Bool :=
  '0' ≤ c && c ≤ '9'

/-- The whitespace test of `skipSpaces`. -/
def isSpace (c : Char) : Bool :=
  c = ' ' || c = '\t' || c = '\n' || c = '\r'

/-- Fuel sufficient for every scanner loop from state `l`: on cursor-
consistent states the loops advance `position` once per iteration and
stop no later than the end of input, and one `readChar` restores cursor
consistency from any state. -/
def lexMeasure (l : Lexer) : Nat :=
  if l.readPosition = l.position + 1 ∧ l.ch = charAt l.input l.position
  then l.input.length + 1 - l.position
  else l.input.length + 2

/-- The loop of `skipSpaces`, fueled. -/
def skipSpacesF : Nat → Lexer → Lexer
  | 0, l => l
  | n + 1, l => if isSpace l.ch then skipSpacesF n (readChar l) else l

/-- Source `Lexer.skipSpaces`. -/
def skipSpaces (l : Lexer) : Lexer :=
  skipSpacesF (lexMeasure l) l

/-- The loop of `readIdentifier`, fueled. -/
def readIdentLoopF : Nat → Lexer → Lexer
  | 0, l => l
  | n + 1, l => if isChar l.ch then readIdentLoopF n (readChar l) else l

/-- Source `Lexer.readIdentifier`: returns the consumed text and the new state. -/
def readIdentifier (l : Lexer) : String × Lexer :=
  let start := l.position
  let l2 := readIdentLoopF (lexMeasure l) l
  (sliceStr l.input start l2.position, l2)

/-- The loop of `readInt`, fueled. -/
def readIntLoopF : Nat → Lexer → Lexer
  | 0, l => l
  | n + 1, l => if isNum l.ch then readIntLoopF n (readChar l) else l

/-- Source `Lexer.readInt`: returns the consumed text and the new state. -/
def readInt (l : Lexer) : String × Lexer :=
  let start := l.position
  let l2 := readIntLoopF (lexMeasure l) l
  (sliceStr l.input start l2.position, l2)

/-- The do-while loop of `readString`, fueled: advance, then stop on a
closing quote or the end sentinel. -/
def readStringLoopF : Nat → Lexer → Lexer
  | 0, l => readChar l
  | n + 1, l =>
      let l2 := readChar l
      if l2.ch = '"' ∨ l2.ch = '\x00' then l2 else readStringLoopF n l2

/-- Source `Lexer.readString`: skip the opening quote, consume until a quote or
the end sentinel, return `input[start:position]` and the new state.
When the opening quote is the last byte of the input the final cursor is
`length + 1` and the Go slice panics; `readStringChecked` below models
that panic, while this total version is adequate only where the slice is
in bounds. -/
def readString (l : Lexer) : String × Lexer :=
  let l1 := readChar l
  let start := l1.position
  let l2 := readStringLoopF (lexMeasure l1) l1
  (sliceStr l.input start l2.position, l2)

/-- Source `newToken` of the source. -/
def newToken (tt : TokenType) (c : Char) : Token :=
  { type := tt, literal := String.mk [c] }

/-- The switch of `Lexer.NextToken`, applied to the state after the
whitespace skip: dispatch on the current character exactly as the Go
switch does; single-token branches end with the trailing `readChar`, the
identifier and integer branches return early without it. -/
def nextTokenCore (l : Lexer) : Token × Lexer :=
  if l.ch = '=' then
    if peekChar l = '=' then
      let tok : Token :=
        { type := .EQ, literal := sliceStr l.input l.position (l.readPosition + 1) }
      (tok, readChar (readChar l))
    else (newToken .ASSIGN l.ch, readChar l)
  else if l.ch = '+' then (newToken .PLUS l.ch, readChar l)
  else if l.ch = '-' then (newToken .MINUS l.ch, readChar l)
  else if l.ch = '*' then (newToken .ASTERISK l.ch, readChar l)
  else if l.ch = '/' then (newToken .SLASH l.ch, readChar l)
  else if l.ch = '!' then
    if peekChar l = '=' then
      let tok : Token :=
        { type := .NOT_EQ, literal := sliceStr l.input l.position (l.readPosition + 1) }
      (tok, readChar (readChar l))
    else (newToken .BANG l.ch, readChar l)
  else if l.ch = '>' then (newToken .GT l.ch, readChar l)
  else if l.ch = '<' then (newToken .LT l.ch, readChar l)
  else if l.ch = '(' then (newToken .LPAREN l.ch, readChar l)
  else if l.ch = ')' then (newToken .RPAREN l.ch, readChar l)
  else if l.ch = '{' then (newToken .LBRACE l.ch, readChar l)
  else if l.ch = '}' then (newToken .RBRACE l.ch, readChar l)
  else if l.ch = '[' then (newToken .LBRACKET l.ch, readChar l)
  else if l.ch = ']' then (newToken .RBRACKET l.ch, readChar l)
  else if l.ch = ',' then (newToken .COMMA l.ch, readChar l)
  else if l.ch = ';' then (newToken .SEMICOLON l.ch, readChar l)
  else if l.ch = '"' then
    let sl := readString l
    ({ type := .STRING, literal := sl.1 }, readChar sl.2)
  else if l.ch = '\x00' then ({ type := .EOF, literal := "" }, readChar l)
  else if isChar l.ch then
    let sl := readIdentifier l
    ({ type := LookupIdent sl.1, literal := sl.1 }, sl.2)
  else if isNum l.ch then
    let sl := readInt l
    ({ type := .INT, literal := sl.1 }, sl.2)
  else (newToken .ILLEGAL l.ch, readChar l)

/-- Source `Lexer.NextToken`: skip whitespace, then run the dispatch switch. -/
def NextToken (l0 : Lexer) : Token × Lexer :=
  nextTokenCore (skipSpaces l0)

/-- The lexer state after `n` calls to `NextToken` starting from a fresh
scanner over `inp`. -/
def lexStateN (inp : List Char) : Nat → Lexer
  | 0 => lexerNew inp
  | n + 1 => (NextToken (lexStateN inp n)).2

/-- The token returned by call number `n + 1` to `NextToken` on a fresh
scanner over `inp` (`n` is 0-indexed). -/
def lexNth (inp : List Char) (n : Nat) : Token :=
  (NextToken (lexStateN inp n)).1

/-- Go slice `inp[a:b]` with Go's bounds check: `none` exactly where Go
panics (`a > b` or `b > length`), otherwise the sliced value. -/
def sliceStrChecked (inp : List Char) (a b : Nat) : Option String :=
  if a ≤ b ∧ b ≤ inp.length then some (sliceStr inp a b) else none

/-- Source `Lexer.readString` with the Go slice bounds check: `none` is the
slice-bounds panic, hit exactly when the opening quote is the input's
last byte (final cursor `length + 1`). -/
def readStringChecked (l : Lexer) : Option (String × Lexer) :=
  let l1 := readChar l
  let start := l1.position
  let l2 := readStringLoopF (lexMeasure l1) l1
  (sliceStrChecked l.input start l2.position).map (fun s => (s, l2))

/-- Source `Lexer.readIdentifier` with the Go slice bounds check. -/
def readIdentifierChecked (l : Lexer) : Option (String × Lexer) :=
  let l2 := readIdentLoopF (lexMeasure l) l
  (sliceStrChecked l.input l.position l2.position).map (fun s => (s, l2))

/-- Source `Lexer.readInt` with the Go slice bounds check. -/
def readIntChecked (l : Lexer) : Option (String × Lexer) :=
  let l2 := readIntLoopF (lexMeasure l) l
  (sliceStrChecked l.input l.position l2.position).map (fun s => (s, l2))

/-- The switch of `Lexer.NextToken` with every Go slice carrying its
bounds check: `none` is a Go slice-bounds panic (the call never
returns). -/
def nextTokenCoreChecked (l : Lexer) : Option (Token × Lexer) :=
  if l.ch = '=' then
    if peekChar l = '=' then
      (sliceStrChecked l.input l.position (l.readPosition + 1)).map
        (fun s => ({ type := .EQ, literal := s }, readChar (readChar l)))
    else some (newToken .ASSIGN l.ch, readChar l)
  else if l.ch = '+' then some (newToken .PLUS l.ch, readChar l)
  else if l.ch = '-' then some (newToken .MINUS l.ch, readChar l)
  else if l.ch = '*' then some (newToken .ASTERISK l.ch, readChar l)
  else if l.ch = '/' then some (newToken .SLASH l.ch, readChar l)
  else if l.ch = '!' then
    if peekChar l = '=' then
      (sliceStrChecked l.input l.position (l.readPosition + 1)).map
        (fun s => ({ type := .NOT_EQ, literal := s }, readChar (readChar l)))
    else some (newToken .BANG l.ch, readChar l)
  else if l.ch = '>' then some (newToken .GT l.ch, readChar l)
  else if l.ch = '<' then some (newToken .LT l.ch, readChar l)
  else if l.ch = '(' then some (newToken .LPAREN l.ch, readChar l)
  else if l.ch = ')' then some (newToken .RPAREN l.ch, readChar l)
  else if l.ch = '{' then some (newToken .LBRACE l.ch, readChar l)
  else if l.ch = '}' then some (newToken .RBRACE l.ch, readChar l)
  else if l.ch = '[' then some (newToken .LBRACKET l.ch, readChar l)
  else if l.ch = ']' then some (newToken .RBRACKET l.ch, readChar l)
  else if l.ch = ',' then some (newToken .COMMA l.ch, readChar l)
  else if l.ch = ';' then some (newToken .SEMICOLON l.ch, readChar l)
  else if l.ch = '"' then
    (readStringChecked l).map
      (fun sl => ({ type := .STRING, literal := sl.1 }, readChar sl.2))
  else if l.ch = '\x00' then some ({ type := .EOF, literal := "" }, readChar l)
  else if isChar l.ch then
    (readIdentifierChecked l).map
      (fun sl => ({ type := LookupIdent sl.1, literal := sl.1 }, sl.2))
  else if isNum l.ch then
    (readIntChecked l).map
      (fun sl => ({ type := .INT, literal := sl.1 }, sl.2))
  else some (newToken .ILLEGAL l.ch, readChar l)

/-- Source `Lexer.NextToken` with the Go slice bounds checks: `none` is a
panic. -/
def NextTokenChecked (l0 : Lexer) : Option (Token × Lexer) :=
  nextTokenCoreChecked (skipSpaces l0)

/-- The scanner state after `n` panic-free calls to the checked
`NextToken` (`none` once some call has panicked). -/
def lexRunChecked (inp : List Char) : Nat → Option Lexer
  | 0 => some (lexerNew inp)
  | n + 1 =>
      match lexRunChecked inp n with
      | none => none
      | some l => (NextTokenChecked l).map (fun r => r.2)

/-- The token returned by call number `n + 1` of the checked scanner on
a fresh scanner over `inp` (`none` if that call or an earlier one
panics). -/
def lexNthChecked (inp : List Char) (n : Nat) : Option Token :=
  match lexRunChecked inp n with
  | none => none
  | some l => (NextTokenChecked l).map (fun r => r.1)

/-! ## Syntax tree model (`ast/ast.go`)

Only the node variants some claim is about are embedded (`IfExpression`,
`FunctionLiteral`, `BlockStatement` and `Boolean` are omitted: no claim
mentions them).  Interface-typed fields that the renderer dereferences
unconditionally are modelled as plain fields; the fields the renderer
guards with a nil check (`LetStatement.Value`, `ReturnStatement.ReturnValue`,
`ExpressionStatement.Expression`) are `Option`. -/

/-- Source `ast.Identifier`. -/
structure Identifier where
  token : Token
  value : String
  deriving DecidableEq, Repr

/-- The embedded expression variants of `ast.go`. -/
inductive Expr where
  | identE (token : Token) (value : String)
  | intLit (token : Token) (value : Int)
  | strLit (token : Token) (value : String)
  | prefixE (token : Token) (operator : String) (right : Expr)
  | infixE (token : Token) (left : Expr) (operator : String) (right : Expr)
  | callE (token : Token) (function : Expr) (arguments : List Expr)
  | arrayLit (token : Token) (elements : List Expr)
  | indexE (token : Token) (left : Expr) (index : Expr)
  deriving Repr

/-- The statement variants of `ast.go` (`LetStatement`, `ReturnStatement`,
`ExpressionStatement`). -/
inductive Stmt where
  | letS (token : Token) (name : Identifier) (value : Option Expr)
  | returnS (token : Token) (returnValue : Option Expr)
  | exprS (token : Token) (expression : Option Expr)
  deriving Repr

mutual

/-- The `String()` renderings of `ast.go`, one clause per node variant:
identifier → its value; literals → their token literal; prefix →
`(<op><right>)`; infix → `(<left> <op> <right>)`; call →
the node's own token literal followed by `(<args>)`; array →
`[<elems>]`; index → `(<left>[<index>])`. -/
def exprString : Expr → String
  | .identE _ v => v
  | .intLit t _ => t.literal
  | .strLit t _ => t.literal
  | .prefixE _ op r => "(" ++ op ++ exprString r ++ ")"
  | .infixE _ left op r => "(" ++ exprString left ++ " " ++ op ++ " " ++ exprString r ++ ")"
  | .callE t _ args => t.literal ++ "(" ++ String.intercalate ", " (exprStringList args) ++ ")"
  | .arrayLit _ els => "[" ++ String.intercalate ", " (exprStringList els) ++ "]"
  | .indexE _ left idx => "(" ++ exprString left ++ "[" ++ exprString idx ++ "])"

/-- Renderings of a list of expressions (the `strings.Join` arguments). -/
def exprStringList : List Expr → List String
  | [] => []
  | e :: es => exprString e :: exprStringList es

end

/-- Rendering of a nil-guarded expression field: Go writes nothing when
the field is nil. -/
def optExprString : Option Expr → String
  | some e => exprString e
  | none => ""

/-- The statement `String()` renderings of `ast.go`. -/
def stmtString : Stmt → String
  | .letS t name value => t.literal ++ " " ++ name.value ++ " = " ++ optExprString value ++ ";"
  | .returnS t value => t.literal ++ " " ++ optExprString value ++ ";"
  | .exprS _ e => optExprString e

/-! ## Parser (`parser/parser.go`) -/

/-- The precedence constants (`iota`, with the blank first value). -/
def LOWEST : Nat := 1
def EQUALS : Nat := 2
def LESSGREATER : Nat := 3
def SUM : Nat := 4
def PRODUCT : Nat := 5
def PREFIX_PREC : Nat := 6
def CALL_PREC : Nat := 7

/-- Source `parser.Parser`: scanner, two-token lookahead and error list.  The
dispatch tables are the fixed function `prefixFnFor` below (registration
happens once in `New`; the infix table is never populated or read). -/
structure PState where
  l : Lexer
  curToken : Token
  peekToken : Token
  errors : List String
  deriving Repr

/-- Source `Parser.NextToken`: shift the lookahead and pull one scanner token. -/
def pNextToken (p : PState) : PState :=
  let tl := NextToken p.l
  { l := tl.2, curToken := p.peekToken, peekToken := tl.1, errors := p.errors }

/-- Source `parser.New`: zero-valued lookahead tokens (never observed), then two
`NextToken` calls; registers `parseIdentifier` for `IDENT` (the only
registration in the source). -/
def parserNew (l : Lexer) : PState :=
  pNextToken (pNextToken
    { l := l, curToken := ⟨.ILLEGAL, ""⟩, peekToken := ⟨.ILLEGAL, ""⟩, errors := [] })

/-- Source `Parser.peekError`: append the descriptive mismatch message. -/
def peekError (p : PState) (t : TokenType) : PState :=
  { p with errors := p.errors ++
      ["expected next token to be " ++ ttString t ++ ", got "
        ++ ttString p.peekToken.type ++ " instead"] }

/-- Source `Parser.expectPeek`: advance on a match, record an error otherwise. -/
def expectPeek (p : PState) (t : TokenType) : Bool × PState :=
  if p.peekToken.type = t then (true, pNextToken p)
  else (false, peekError p t)

/-- Source `Parser.parseIdentifier`. -/
def parseIdentifier (p : PState) : Option Expr × PState :=
  (some (Expr.identE p.curToken p.curToken.literal), p)

/-- The prefix dispatch table as populated by `parser.New`: only `IDENT`
has a handler. -/
def prefixFnFor : TokenType → Option (PState → Option Expr × PState)
  | .IDENT => some parseIdentifier
  | _ => none

/-- Source `Parser.parseExpression`: look up the prefix handler for the current
token's category; with none, return no expression (the source performs
the same map lookup twice and calls the result); the precedence argument
is never used. -/
def parseExpression (p : PState) (precedence : Nat) : Option Expr × PState :=
  match prefixFnFor p.curToken.type with
  | none => (none, p)
  | some f => f p

/-- The `for !p.expectPeek(token.SEMICOLON) { p.NextToken() }` loop shared
by the let and return statement parsers, fueled; `none` means the fuel
ran out (the source loop is unbounded). -/
def skipToSemicolonLoop : Nat → PState → Option PState
  | 0, _ => none
  | n + 1, p =>
      let r := expectPeek p .SEMICOLON
      if r.1 then some r.2 else skipToSemicolonLoop n (pNextToken r.2)

/-- Source `Parser.ParseLetStatment`: the inner `Option` is the Go nil pointer
returned on an expected-token mismatch; the right-hand side is never
parsed (the `Value` field is left nil). -/
def ParseLetStatment (fuel : Nat) (p : PState) : Option (Option Stmt × PState) :=
  let letTok := p.curToken
  let r1 := expectPeek p .IDENT
  if r1.1 = false then some (none, r1.2)
  else
    let name : Identifier := ⟨r1.2.curToken, r1.2.curToken.literal⟩
    let r2 := expectPeek r1.2 .ASSIGN
    if r2.1 = false then some (none, r2.2)
    else
      match skipToSemicolonLoop fuel r2.2 with
      | none => none
      | some p3 => some (some (Stmt.letS letTok name none), p3)

/-- Source `Parser.ParseReturnStatement`: advance once, then skip to the
semicolon; the return value is never parsed (left nil). -/
def ParseReturnStatement (fuel : Nat) (p : PState) : Option (Stmt × PState) :=
  let retTok := p.curToken
  match skipToSemicolonLoop fuel (pNextToken p) with
  | none => none
  | some p2 => some (Stmt.returnS retTok none, p2)

/-- Source `Parser.ParseExpressionStatement`. -/
def ParseExpressionStatement (p : PState) : Stmt × PState :=
  let tok := p.curToken
  let r := parseExpression p LOWEST
  let p2 := if r.2.peekToken.type = .SEMICOLON then pNextToken r.2 else r.2
  (Stmt.exprS tok r.1, p2)

/-- A parsed statement as the Go `ast.Statement` interface value:
`ParseLetStatment`'s nil pointer is wrapped into a non-nil interface
value (`nilLet`), the Go typed-nil behaviour. -/
inductive PStmt where
  | nilLet
  | valid (s : Stmt)
  deriving Repr

/-- Source `Parser.ParseStatement`: dispatch on the current token's category. -/
def ParseStatement (fuel : Nat) (p : PState) : Option (PStmt × PState) :=
  match p.curToken.type with
  | .LET =>
      match ParseLetStatment fuel p with
      | none => none
      | some (Option.none, p1) => some (PStmt.nilLet, p1)
      | some (some s, p1) => some (PStmt.valid s, p1)
  | .RETURN =>
      match ParseReturnStatement fuel p with
      | none => none
      | some (s, p1) => some (PStmt.valid s, p1)
  | _ =>
      let r := ParseExpressionStatement p
      some (PStmt.valid r.1, r.2)

/-- Source `Parser.ParseProgram`, fueled (`none` = the fuel ran out; the source
loop is unbounded).  Go's `stmt != nil` guard compares the interface
value, which is non-nil even for a nil `*ast.LetStatement`, so every
parsed statement — `PStmt.nilLet` included — is appended. -/
def ParseProgram : Nat → PState → Option (List PStmt × PState)
  | 0, p => if p.curToken.type = .EOF then some ([], p) else none
  | n + 1, p =>
      if p.curToken.type = .EOF then some ([], p)
      else
        match ParseStatement n p with
        | none => none
        | some (st, p1) =>
            match ParseProgram n (pNextToken p1) with
            | none => none
            | some (rest, p2) => some (st :: rest, p2)

/-- Parse a source text from a fresh scanner and parser. -/
def runParser (input : String) (fuel : Nat) : Option (List PStmt × PState) :=
  ParseProgram fuel (parserNew (lexerNew input.toList))

/-- Source `Program.String` on one parsed statement: calling `String()` on the
typed-nil `*ast.LetStatement` dereferences nil (no rendering). -/
def pstmtString : PStmt → Option String
  | .nilLet => none
  | .valid s => some (stmtString s)

/-- Source `Program.String`: concatenate the statement renderings (none if any
statement is the typed-nil pointer). -/
def programString : List PStmt → Option String
  | [] => some ""
  | s :: rest =>
      match pstmtString s, programString rest with
      | some a, some b => some (a ++ b)
      | _, _ => none

/-! ## Scanner invariants

Cursor consistency is established by `lexer.New` and preserved by every
scanner operation; it is what makes the fuel `lexMeasure` sufficient for
each loop (certified below by the loops' exit conditions holding at the
returned state, so the fueled loops coincide with the source's unbounded
ones). -/

/-- Cursor consistency: `readPosition` is one past `position` and `ch`
caches the byte at `position` (the sentinel beyond the end). -/
def lexGood (l : Lexer) : Prop :=
  l.readPosition = l.position + 1 ∧ l.ch = charAt l.input l.position

theorem charAt_of_le {inp : List Char} {i : Nat} (h : inp.length ≤ i) :
    charAt inp i = '\x00' :=
  List.getD_eq_default inp _ h

theorem readChar_good (l : Lexer) : lexGood (readChar l) := by
  refine ⟨rfl, ?_⟩
  show (if l.readPosition ≥ l.input.length then '\x00' else charAt l.input l.readPosition)
      = charAt l.input l.readPosition
  split
  · exact (charAt_of_le (by omega)).symm
  · rfl

theorem lexerNew_good (inp : List Char) : lexGood (lexerNew inp) :=
  readChar_good _

theorem good_pos_of_ch_ne {l : Lexer} (hg : lexGood l) (h : l.ch ≠ '\x00') :
    l.position < l.input.length := by
  by_contra hlt
  exact h (hg.2.trans (charAt_of_le (by omega)))

theorem good_ch_of_end {l : Lexer} (hg : lexGood l) (h : l.input.length ≤ l.position) :
    l.ch = '\x00' :=
  hg.2.trans (charAt_of_le h)

theorem lexMeasure_good {l : Lexer} (hg : lexGood l) :
    lexMeasure l = l.input.length + 1 - l.position := by
  unfold lexMeasure
  exact if_pos ⟨hg.1, hg.2⟩

theorem lexMeasure_zero {l : Lexer} (h : lexMeasure l = 0) :
    lexGood l ∧ l.input.length < l.position := by
  unfold lexMeasure at h
  split at h
  · next hc => exact ⟨⟨hc.1, hc.2⟩, by omega⟩
  · omega

theorem lexMeasure_lt_of_ne {l : Lexer} (h : l.ch ≠ '\x00') :
    lexMeasure (readChar l) < lexMeasure l := by
  have hr := readChar_good l
  have h1 : lexMeasure (readChar l) = l.input.length + 1 - l.readPosition := by
    unfold lexMeasure
    exact if_pos ⟨hr.1, hr.2⟩
  rw [h1]
  unfold lexMeasure
  split
  · next hc =>
      have hlt : l.position < l.input.length :=
        good_pos_of_ch_ne ⟨hc.1, hc.2⟩ h
      omega
  · omega

theorem lexMeasure_lt_of_ne2 {l : Lexer} (h : (readChar l).ch ≠ '\x00') :
    lexMeasure (readChar l) < lexMeasure l := by
  have hr := readChar_good l
  have h1 : lexMeasure (readChar l) = l.input.length + 1 - l.readPosition := by
    unfold lexMeasure
    exact if_pos ⟨hr.1, hr.2⟩
  have hlt : l.readPosition < l.input.length := good_pos_of_ch_ne hr h
  rw [h1]
  unfold lexMeasure
  split
  · next hc => omega
  · omega

theorem skipSpacesF_spec {n : Nat} {l : Lexer} (hg : lexGood l) :
    lexGood (skipSpacesF n l) ∧ l.position ≤ (skipSpacesF n l).position ∧
      (skipSpacesF n l).input = l.input := by
  induction n generalizing l with
  | zero => exact ⟨hg, Nat.le_refl _, rfl⟩
  | succ n ih =>
      simp only [skipSpacesF]
      split
      · obtain ⟨h1, h2, h3⟩ := ih (readChar_good l)
        have hp : (readChar l).position = l.position + 1 := hg.1
        exact ⟨h1, by omega, h3⟩
      · exact ⟨hg, Nat.le_refl _, rfl⟩

theorem skipSpacesF_exit {n : Nat} {l : Lexer} (h : lexMeasure l ≤ n) :
    isSpace (skipSpacesF n l).ch = false := by
  induction n generalizing l with
  | zero =>
      obtain ⟨hg, hlt⟩ := lexMeasure_zero (Nat.le_zero.mp h)
      show isSpace l.ch = false
      rw [good_ch_of_end hg (by omega)]
      decide
  | succ n ih =>
      simp only [skipSpacesF]
      split
      · next hsp =>
          refine ih (Nat.le_of_lt_succ (Nat.lt_of_lt_of_le ?_ h))
          refine lexMeasure_lt_of_ne (fun hc => ?_)
          rw [hc] at hsp
          exact absurd hsp (by decide)
      · next hsp => exact Bool.of_not_eq_true hsp

theorem readIdentLoopF_spec {n : Nat} {l : Lexer} (hg : lexGood l) :
    lexGood (readIdentLoopF n l) ∧ l.position ≤ (readIdentLoopF n l).position ∧
      (readIdentLoopF n l).input = l.input := by
  induction n generalizing l with
  | zero => exact ⟨hg, Nat.le_refl _, rfl⟩
  | succ n ih =>
      simp only [readIdentLoopF]
      split
      · obtain ⟨h1, h2, h3⟩ := ih (readChar_good l)
        have hp : (readChar l).position = l.position + 1 := hg.1
        exact ⟨h1, by omega, h3⟩
      · exact ⟨hg, Nat.le_refl _, rfl⟩

theorem readIdentLoopF_exit {n : Nat} {l : Lexer} (h : lexMeasure l ≤ n) :
    isChar (readIdentLoopF n l).ch = false := by
  induction n generalizing l with
  | zero =>
      obtain ⟨hg, hlt⟩ := lexMeasure_zero (Nat.le_zero.mp h)
      show isChar l.ch = false
      rw [good_ch_of_end hg (by omega)]
      decide
  | succ n ih =>
      simp only [readIdentLoopF]
      split
      · next hsp =>
          refine ih (Nat.le_of_lt_succ (Nat.lt_of_lt_of_le ?_ h))
          refine lexMeasure_lt_of_ne (fun hc => ?_)
          rw [hc] at hsp
          exact absurd hsp (by decide)
      · next hsp => exact Bool.of_not_eq_true hsp

theorem readIntLoopF_spec {n : Nat} {l : Lexer} (hg : lexGood l) :
    lexGood (readIntLoopF n l) ∧ l.position ≤ (readIntLoopF n l).position ∧
      (readIntLoopF n l).input = l.input := by
  induction n generalizing l with
  | zero => exact ⟨hg, Nat.le_refl _, rfl⟩
  | succ n ih =>
      simp only [readIntLoopF]
      split
      · obtain ⟨h1, h2, h3⟩ := ih (readChar_good l)
        have hp : (readChar l).position = l.position + 1 := hg.1
        exact ⟨h1, by omega, h3⟩
      · exact ⟨hg, Nat.le_refl _, rfl⟩

theorem readIntLoopF_exit {n : Nat} {l : Lexer} (h : lexMeasure l ≤ n) :
    isNum (readIntLoopF n l).ch = false := by
  induction n generalizing l with
  | zero =>
      obtain ⟨hg, hlt⟩ := lexMeasure_zero (Nat.le_zero.mp h)
      show isNum l.ch = false
      rw [good_ch_of_end hg (by omega)]
      decide
  | succ n ih =>
      simp only [readIntLoopF]
      split
      · next hsp =>
          refine ih (Nat.le_of_lt_succ (Nat.lt_of_lt_of_le ?_ h))
          refine lexMeasure_lt_of_ne (fun hc => ?_)
          rw [hc] at hsp
          exact absurd hsp (by decide)
      · next hsp => exact Bool.of_not_eq_true hsp

theorem readStringLoopF_spec {n : Nat} {l : Lexer} :
    lexGood (readStringLoopF n l) ∧
      l.readPosition ≤ (readStringLoopF n l).position ∧
      (readStringLoopF n l).input = l.input := by
  induction n generalizing l with
  | zero => exact ⟨readChar_good l, Nat.le_refl _, rfl⟩
  | succ n ih =>
      simp only [readStringLoopF]
      split
      · exact ⟨readChar_good l, Nat.le_refl _, rfl⟩
      · obtain ⟨h1, h2, h3⟩ := ih (l := readChar l)
        have hp : (readChar l).readPosition = l.readPosition + 1 := rfl
        exact ⟨h1, by omega, h3⟩

theorem readStringLoopF_exit {n : Nat} {l : Lexer} (h : lexMeasure l ≤ n) :
    (readStringLoopF n l).ch = '"' ∨ (readStringLoopF n l).ch = '\x00' := by
  induction n generalizing l with
  | zero =>
      obtain ⟨hg, hlt⟩ := lexMeasure_zero (Nat.le_zero.mp h)
      show (readChar l).ch = '"' ∨ (readChar l).ch = '\x00'
      refine Or.inr ?_
      refine good_ch_of_end (readChar_good l) ?_
      show l.input.length ≤ l.readPosition
      have := hg.1
      omega
  | succ n ih =>
      simp only [readStringLoopF]
      split
      · next hc => exact hc
      · next hc =>
          refine ih (Nat.le_of_lt_succ (Nat.lt_of_lt_of_le ?_ h))
          exact lexMeasure_lt_of_ne2 (fun he => hc (Or.inr he))

theorem isChar_nul : isChar '\x00' = false := by decide

theorem isNum_nul : isNum '\x00' = false := by decide

theorem after_readChar {inp : List Char} {p0 : Nat} {ls : Lexer} (hgs : lexGood ls)
    (hps : p0 ≤ ls.position) (his : ls.input = inp) :
    lexGood (readChar ls) ∧ p0 < (readChar ls).position ∧ (readChar ls).input = inp := by
  refine ⟨readChar_good ls, ?_, his⟩
  show p0 < ls.readPosition
  have h2 := hgs.1
  omega

theorem after_readChar2 {inp : List Char} {p0 : Nat} {ls : Lexer} (hgs : lexGood ls)
    (hps : p0 ≤ ls.position) (his : ls.input = inp) :
    lexGood (readChar (readChar ls)) ∧ p0 < (readChar (readChar ls)).position ∧
      (readChar (readChar ls)).input = inp :=
  after_readChar (readChar_good ls) (Nat.le_of_lt (after_readChar hgs hps his).2.1)
    (after_readChar hgs hps his).2.2

theorem after_readIdentifier {inp : List Char} {p0 : Nat} {ls : Lexer} (hgs : lexGood ls)
    (hps : p0 ≤ ls.position) (his : ls.input = inp) (hch : isChar ls.ch = true) :
    lexGood (readIdentifier ls).2 ∧ p0 < (readIdentifier ls).2.position ∧
      (readIdentifier ls).2.input = inp := by
  have hne : ls.ch ≠ '\x00' := fun hc => by rw [hc] at hch; exact absurd hch (by decide)
  have hlt : ls.position < ls.input.length := good_pos_of_ch_ne hgs hne
  have hm : lexMeasure ls = (ls.input.length - ls.position) + 1 := by
    rw [lexMeasure_good hgs]; omega
  have key : readIdentLoopF (lexMeasure ls) ls
      = readIdentLoopF (ls.input.length - ls.position) (readChar ls) := by
    rw [hm]; simp [readIdentLoopF, hch]
  obtain ⟨g1, g2, g3⟩ := readIdentLoopF_spec (n := ls.input.length - ls.position)
    (readChar_good ls)
  refine ⟨?_, ?_, ?_⟩
  · show lexGood (readIdentLoopF (lexMeasure ls) ls)
    rw [key]; exact g1
  · show p0 < (readIdentLoopF (lexMeasure ls) ls).position
    rw [key]
    have h4 : (readChar ls).position = ls.readPosition := rfl
    have h5 := hgs.1
    omega
  · show (readIdentLoopF (lexMeasure ls) ls).input = inp
    rw [key]; exact g3.trans his

theorem after_readInt {inp : List Char} {p0 : Nat} {ls : Lexer} (hgs : lexGood ls)
    (hps : p0 ≤ ls.position) (his : ls.input = inp) (hch : isNum ls.ch = true) :
    lexGood (readInt ls).2 ∧ p0 < (readInt ls).2.position ∧
      (readInt ls).2.input = inp := by
  have hne : ls.ch ≠ '\x00' := fun hc => by rw [hc] at hch; exact absurd hch (by decide)
  have hlt : ls.position < ls.input.length := good_pos_of_ch_ne hgs hne
  have hm : lexMeasure ls = (ls.input.length - ls.position) + 1 := by
    rw [lexMeasure_good hgs]; omega
  have key : readIntLoopF (lexMeasure ls) ls
      = readIntLoopF (ls.input.length - ls.position) (readChar ls) := by
    rw [hm]; simp [readIntLoopF, hch]
  obtain ⟨g1, g2, g3⟩ := readIntLoopF_spec (n := ls.input.length - ls.position)
    (readChar_good ls)
  refine ⟨?_, ?_, ?_⟩
  · show lexGood (readIntLoopF (lexMeasure ls) ls)
    rw [key]; exact g1
  · show p0 < (readIntLoopF (lexMeasure ls) ls).position
    rw [key]
    have h4 : (readChar ls).position = ls.readPosition := rfl
    have h5 := hgs.1
    omega
  · show (readIntLoopF (lexMeasure ls) ls).input = inp
    rw [key]; exact g3.trans his

theorem after_readString {inp : List Char} {p0 : Nat} {ls : Lexer} (hgs : lexGood ls)
    (hps : p0 ≤ ls.position) (his : ls.input = inp) :
    lexGood (readChar (readString ls).2) ∧ p0 < (readChar (readString ls).2).position ∧
      (readChar (readString ls).2).input = inp := by
  obtain ⟨g1, g2, g3⟩ := readStringLoopF_spec (n := lexMeasure (readChar ls)) (l := readChar ls)
  refine after_readChar g1 ?_ (g3.trans his)
  show p0 ≤ (readStringLoopF (lexMeasure (readChar ls)) (readChar ls)).position
  have h4 : (readChar ls).readPosition = ls.readPosition + 1 := rfl
  have h5 := hgs.1
  omega

set_option maxHeartbeats 1600000 in
theorem nextTokenCore_spec {inp : List Char} {p0 : Nat} {ls : Lexer} (hgs : lexGood ls)
    (hps : p0 ≤ ls.position) (his : ls.input = inp) :
    lexGood (nextTokenCore ls).2 ∧ p0 < (nextTokenCore ls).2.position ∧
      (nextTokenCore ls).2.input = inp := by
  unfold nextTokenCore
  by_cases h1 : ls.ch = '='
  · rw [if_pos h1]
    by_cases h1b : peekChar ls = '='
    · rw [if_pos h1b]
      exact after_readChar2 hgs hps his
    · rw [if_neg h1b]
      exact after_readChar hgs hps his
  · rw [if_neg h1]
    by_cases h2 : ls.ch = '+'
    · rw [if_pos h2]
      exact after_readChar hgs hps his
    · rw [if_neg h2]
      by_cases h3 : ls.ch = '-'
      · rw [if_pos h3]
        exact after_readChar hgs hps his
      · rw [if_neg h3]
        by_cases h4 : ls.ch = '*'
        · rw [if_pos h4]
          exact after_readChar hgs hps his
        · rw [if_neg h4]
          by_cases h5 : ls.ch = '/'
          · rw [if_pos h5]
            exact after_readChar hgs hps his
          · rw [if_neg h5]
            by_cases h6 : ls.ch = '!'
            · rw [if_pos h6]
              by_cases h6b : peekChar ls = '='
              · rw [if_pos h6b]
                exact after_readChar2 hgs hps his
              · rw [if_neg h6b]
                exact after_readChar hgs hps his
            · rw [if_neg h6]
              by_cases h7 : ls.ch = '>'
              · rw [if_pos h7]
                exact after_readChar hgs hps his
              · rw [if_neg h7]
                by_cases h8 : ls.ch = '<'
                · rw [if_pos h8]
                  exact after_readChar hgs hps his
                · rw [if_neg h8]
                  by_cases h9 : ls.ch = '('
                  · rw [if_pos h9]
                    exact after_readChar hgs hps his
                  · rw [if_neg h9]
                    by_cases h10 : ls.ch = ')'
                    · rw [if_pos h10]
                      exact after_readChar hgs hps his
                    · rw [if_neg h10]
                      by_cases h11 : ls.ch = '\x7b'
                      · rw [if_pos h11]
                        exact after_readChar hgs hps his
                      · rw [if_neg h11]
                        by_cases h12 : ls.ch = '\x7d'
                        · rw [if_pos h12]
                          exact after_readChar hgs hps his
                        · rw [if_neg h12]
                          by_cases h13 : ls.ch = '['
                          · rw [if_pos h13]
                            exact after_readChar hgs hps his
                          · rw [if_neg h13]
                            by_cases h14 : ls.ch = ']'
                            · rw [if_pos h14]
                              exact after_readChar hgs hps his
                            · rw [if_neg h14]
                              by_cases h15 : ls.ch = ','
                              · rw [if_pos h15]
                                exact after_readChar hgs hps his
                              · rw [if_neg h15]
                                by_cases h16 : ls.ch = ';'
                                · rw [if_pos h16]
                                  exact after_readChar hgs hps his
                                · rw [if_neg h16]
                                  by_cases h17 : ls.ch = '"'
                                  · rw [if_pos h17]
                                    exact after_readString hgs hps his
                                  · rw [if_neg h17]
                                    by_cases h18 : ls.ch = '\x00'
                                    · rw [if_pos h18]
                                      exact after_readChar hgs hps his
                                    · rw [if_neg h18]
                                      by_cases hic : isChar ls.ch
                                      · rw [if_pos hic]
                                        exact after_readIdentifier hgs hps his hic
                                      · rw [if_neg hic]
                                        by_cases hin : isNum ls.ch
                                        · rw [if_pos hin]
                                          exact after_readInt hgs hps his hin
                                        · rw [if_neg hin]
                                          exact after_readChar hgs hps his

theorem nextToken_spec {l0 : Lexer} (hg : lexGood l0) :
    lexGood (NextToken l0).2 ∧ l0.position < (NextToken l0).2.position ∧
      (NextToken l0).2.input = l0.input := by
  obtain ⟨hgs, hps, his⟩ :
      lexGood (skipSpaces l0) ∧ l0.position ≤ (skipSpaces l0).position ∧
        (skipSpaces l0).input = l0.input :=
    skipSpacesF_spec hg
  exact nextTokenCore_spec hgs hps his

theorem LookupIdent_ne_eof (s : String) : LookupIdent s ≠ TokenType.EOF := by
  unfold LookupIdent
  split_ifs <;> decide

set_option maxHeartbeats 1600000 in
theorem nextTokenCore_eof_inv {ls : Lexer} (h : (nextTokenCore ls).1.type = TokenType.EOF) :
    ls.ch = '\x00' ∧ (nextTokenCore ls).2 = readChar ls := by
  unfold nextTokenCore at h ⊢
  by_cases h1 : ls.ch = '='
  · rw [if_pos h1] at h
    by_cases h1b : peekChar ls = '='
    · rw [if_pos h1b] at h
      simp [newToken] at h
    · rw [if_neg h1b] at h
      simp [newToken] at h
  · rw [if_neg h1] at h ⊢
    by_cases h2 : ls.ch = '+'
    · rw [if_pos h2] at h
      simp [newToken] at h
    · rw [if_neg h2] at h ⊢
      by_cases h3 : ls.ch = '-'
      · rw [if_pos h3] at h
        simp [newToken] at h
      · rw [if_neg h3] at h ⊢
        by_cases h4 : ls.ch = '*'
        · rw [if_pos h4] at h
          simp [newToken] at h
        · rw [if_neg h4] at h ⊢
          by_cases h5 : ls.ch = '/'
          · rw [if_pos h5] at h
            simp [newToken] at h
          · rw [if_neg h5] at h ⊢
            by_cases h6 : ls.ch = '!'
            · rw [if_pos h6] at h
              by_cases h6b : peekChar ls = '='
              · rw [if_pos h6b] at h
                simp [newToken] at h
              · rw [if_neg h6b] at h
                simp [newToken] at h
            · rw [if_neg h6] at h ⊢
              by_cases h7 : ls.ch = '>'
              · rw [if_pos h7] at h
                simp [newToken] at h
              · rw [if_neg h7] at h ⊢
                by_cases h8 : ls.ch = '<'
                · rw [if_pos h8] at h
                  simp [newToken] at h
                · rw [if_neg h8] at h ⊢
                  by_cases h9 : ls.ch = '('
                  · rw [if_pos h9] at h
                    simp [newToken] at h
                  · rw [if_neg h9] at h ⊢
                    by_cases h10 : ls.ch = ')'
                    · rw [if_pos h10] at h
                      simp [newToken] at h
                    · rw [if_neg h10] at h ⊢
                      by_cases h11 : ls.ch = '\x7b'
                      · rw [if_pos h11] at h
                        simp [newToken] at h
                      · rw [if_neg h11] at h ⊢
                        by_cases h12 : ls.ch = '\x7d'
                        · rw [if_pos h12] at h
                          simp [newToken] at h
                        · rw [if_neg h12] at h ⊢
                          by_cases h13 : ls.ch = '['
                          · rw [if_pos h13] at h
                            simp [newToken] at h
                          · rw [if_neg h13] at h ⊢
                            by_cases h14 : ls.ch = ']'
                            · rw [if_pos h14] at h
                              simp [newToken] at h
                            · rw [if_neg h14] at h ⊢
                              by_cases h15 : ls.ch = ','
                              · rw [if_pos h15] at h
                                simp [newToken] at h
                              · rw [if_neg h15] at h ⊢
                                by_cases h16 : ls.ch = ';'
                                · rw [if_pos h16] at h
                                  simp [newToken] at h
                                · rw [if_neg h16] at h ⊢
                                  by_cases h17 : ls.ch = '"'
                                  · rw [if_pos h17] at h
                                    simp [newToken] at h
                                  · rw [if_neg h17] at h ⊢
                                    by_cases h18 : ls.ch = '\x00'
                                    · rw [if_pos h18] at h ⊢
                                      exact ⟨h18, rfl⟩
                                    · rw [if_neg h18] at h ⊢
                                      by_cases hic : isChar ls.ch
                                      · rw [if_pos hic] at h
                                        exact absurd h (LookupIdent_ne_eof _)
                                      · rw [if_neg hic] at h
                                        by_cases hin : isNum ls.ch
                                        · rw [if_pos hin] at h
                                          simp [newToken] at h
                                        · rw [if_neg hin] at h
                                          simp [newToken] at h

theorem nextToken_eof_inv {l0 : Lexer} (h : (NextToken l0).1.type = TokenType.EOF) :
    (skipSpaces l0).ch = '\x00' ∧ (NextToken l0).2 = readChar (skipSpaces l0) :=
  nextTokenCore_eof_inv h

set_option maxHeartbeats 1600000 in
theorem nextTokenCore_ch0 {ls : Lexer} (hch : ls.ch = '\x00') :
    nextTokenCore ls = ({ type := TokenType.EOF, literal := "" }, readChar ls) := by
  unfold nextTokenCore
  rw [if_neg (hch ▸ (by decide) : ¬(ls.ch = '='))]
  rw [if_neg (hch ▸ (by decide) : ¬(ls.ch = '+'))]
  rw [if_neg (hch ▸ (by decide) : ¬(ls.ch = '-'))]
  rw [if_neg (hch ▸ (by decide) : ¬(ls.ch = '*'))]
  rw [if_neg (hch ▸ (by decide) : ¬(ls.ch = '/'))]
  rw [if_neg (hch ▸ (by decide) : ¬(ls.ch = '!'))]
  rw [if_neg (hch ▸ (by decide) : ¬(ls.ch = '>'))]
  rw [if_neg (hch ▸ (by decide) : ¬(ls.ch = '<'))]
  rw [if_neg (hch ▸ (by decide) : ¬(ls.ch = '('))]
  rw [if_neg (hch ▸ (by decide) : ¬(ls.ch = ')'))]
  rw [if_neg (hch ▸ (by decide) : ¬(ls.ch = '\x7b'))]
  rw [if_neg (hch ▸ (by decide) : ¬(ls.ch = '\x7d'))]
  rw [if_neg (hch ▸ (by decide) : ¬(ls.ch = '['))]
  rw [if_neg (hch ▸ (by decide) : ¬(ls.ch = ']'))]
  rw [if_neg (hch ▸ (by decide) : ¬(ls.ch = ','))]
  rw [if_neg (hch ▸ (by decide) : ¬(ls.ch = ';'))]
  rw [if_neg (hch ▸ (by decide) : ¬(ls.ch = '"'))]
  rw [if_pos hch]

theorem nextToken_atEnd {l : Lexer} (hg : lexGood l) (hend : l.input.length ≤ l.position) :
    NextToken l = ({ type := TokenType.EOF, literal := "" }, readChar l) := by
  have hch : l.ch = '\x00' := good_ch_of_end hg hend
  have hskip : skipSpaces l = l := by
    unfold skipSpaces
    have hsp : isSpace l.ch = false := by rw [hch]; decide
    cases hn : lexMeasure l with
    | zero => rfl
    | succ m => simp [skipSpacesF, hsp]
  show nextTokenCore (skipSpaces l) = _
  rw [hskip, nextTokenCore_ch0 hch]

theorem lexStateN_spec (inp : List Char) (n : Nat) :
    lexGood (lexStateN inp n) ∧ n ≤ (lexStateN inp n).position ∧
      (lexStateN inp n).input = inp := by
  induction n with
  | zero => exact ⟨lexerNew_good inp, Nat.zero_le _, rfl⟩
  | succ n ih =>
      obtain ⟨h1, h2, h3⟩ := ih
      obtain ⟨g1, g2, g3⟩ := nextToken_spec h1
      refine ⟨g1, ?_, g3.trans h3⟩
      show n + 1 ≤ (NextToken (lexStateN inp n)).2.position
      omega

theorem lexNth_eof_at (inp : List Char) (k : Nat) (h : inp.length ≤ k) :
    (lexNth inp k).type = TokenType.EOF := by
  obtain ⟨h1, h2, h3⟩ := lexStateN_spec inp k
  have hend : (lexStateN inp k).input.length ≤ (lexStateN inp k).position := by
    rw [h3]; omega
  show (NextToken (lexStateN inp k)).1.type = TokenType.EOF
  rw [nextToken_atEnd h1 hend]

theorem lexStateN_succ_atEnd {inp : List Char} (hnul : ∀ c ∈ inp, c ≠ '\x00')
    {k : Nat} (h : (lexNth inp k).type = TokenType.EOF) :
    lexGood (lexStateN inp (k + 1)) ∧
      (lexStateN inp (k + 1)).input.length ≤ (lexStateN inp (k + 1)).position := by
  obtain ⟨h1, h2, h3⟩ := lexStateN_spec inp k
  obtain ⟨hc, hstate⟩ := nextToken_eof_inv h
  obtain ⟨sg, sp, si⟩ :
      lexGood (skipSpaces (lexStateN inp k)) ∧
        (lexStateN inp k).position ≤ (skipSpaces (lexStateN inp k)).position ∧
        (skipSpaces (lexStateN inp k)).input = (lexStateN inp k).input :=
    skipSpacesF_spec h1
  have hend : (skipSpaces (lexStateN inp k)).input.length
      ≤ (skipSpaces (lexStateN inp k)).position := by
    by_contra hlt
    push_neg at hlt
    have hmem : (skipSpaces (lexStateN inp k)).ch ∈ (skipSpaces (lexStateN inp k)).input := by
      rw [sg.2, charAt, List.getD_eq_getElem _ _ hlt]
      exact List.getElem_mem hlt
    rw [si, h3] at hmem
    exact hnul _ hmem hc
  have hg2 : lexGood (readChar (skipSpaces (lexStateN inp k))) := readChar_good _
  have hend2 : (readChar (skipSpaces (lexStateN inp k))).input.length
      ≤ (readChar (skipSpaces (lexStateN inp k))).position := by
    show (skipSpaces (lexStateN inp k)).input.length
        ≤ (skipSpaces (lexStateN inp k)).readPosition
    have := sg.1
    omega
  have hs1 : lexStateN inp (k + 1) = readChar (skipSpaces (lexStateN inp k)) := hstate
  rw [hs1]
  exact ⟨hg2, hend2⟩

theorem lexNth_eof_succ {inp : List Char} (hnul : ∀ c ∈ inp, c ≠ '\x00')
    {k : Nat} (h : (lexNth inp k).type = TokenType.EOF) :
    (lexNth inp (k + 1)).type = TokenType.EOF := by
  obtain ⟨hg2, hend2⟩ := lexStateN_succ_atEnd hnul h
  show (NextToken (lexStateN inp (k + 1))).1.type = TokenType.EOF
  rw [nextToken_atEnd hg2 hend2]


/-! ## Bridge between the checked scanner and the total one: whenever a
checked call returns (no Go panic), it agrees with the total model. -/

theorem sliceStrChecked_some {inp : List Char} {a b : Nat} {s : String}
    (h : sliceStrChecked inp a b = some s) : s = sliceStr inp a b := by
  unfold sliceStrChecked at h
  split at h
  · exact (Option.some.inj h).symm
  · exact Option.noConfusion h

theorem readStringChecked_some {l : Lexer} {sl : String × Lexer}
    (h : readStringChecked l = some sl) : sl = readString l := by
  unfold readStringChecked at h
  obtain ⟨s, hs, hp⟩ := Option.map_eq_some'.mp h
  rw [sliceStrChecked_some hs] at hp
  exact hp.symm

theorem readIdentifierChecked_some {l : Lexer} {sl : String × Lexer}
    (h : readIdentifierChecked l = some sl) : sl = readIdentifier l := by
  unfold readIdentifierChecked at h
  obtain ⟨s, hs, hp⟩ := Option.map_eq_some'.mp h
  rw [sliceStrChecked_some hs] at hp
  exact hp.symm

theorem readIntChecked_some {l : Lexer} {sl : String × Lexer}
    (h : readIntChecked l = some sl) : sl = readInt l := by
  unfold readIntChecked at h
  obtain ⟨s, hs, hp⟩ := Option.map_eq_some'.mp h
  rw [sliceStrChecked_some hs] at hp
  exact hp.symm

set_option maxHeartbeats 1600000 in
theorem nextTokenCoreChecked_some {ls : Lexer} {p : Token × Lexer}
    (h : nextTokenCoreChecked ls = some p) : p = nextTokenCore ls := by
  unfold nextTokenCoreChecked at h
  unfold nextTokenCore
  by_cases h1 : ls.ch = '='
  · rw [if_pos h1] at h ⊢
    by_cases h1b : peekChar ls = '='
    · rw [if_pos h1b] at h ⊢
      obtain ⟨s, hs, hp⟩ := Option.map_eq_some'.mp h
      rw [sliceStrChecked_some hs] at hp
      exact hp.symm
    · rw [if_neg h1b] at h ⊢
      exact (Option.some.inj h).symm
  · rw [if_neg h1] at h ⊢
    by_cases h2 : ls.ch = '+'
    · rw [if_pos h2] at h ⊢
      exact (Option.some.inj h).symm
    · rw [if_neg h2] at h ⊢
      by_cases h3 : ls.ch = '-'
      · rw [if_pos h3] at h ⊢
        exact (Option.some.inj h).symm
      · rw [if_neg h3] at h ⊢
        by_cases h4 : ls.ch = '*'
        · rw [if_pos h4] at h ⊢
          exact (Option.some.inj h).symm
        · rw [if_neg h4] at h ⊢
          by_cases h5 : ls.ch = '/'
          · rw [if_pos h5] at h ⊢
            exact (Option.some.inj h).symm
          · rw [if_neg h5] at h ⊢
            by_cases h6 : ls.ch = '!'
            · rw [if_pos h6] at h ⊢
              by_cases h6b : peekChar ls = '='
              · rw [if_pos h6b] at h ⊢
                obtain ⟨s, hs, hp⟩ := Option.map_eq_some'.mp h
                rw [sliceStrChecked_some hs] at hp
                exact hp.symm
              · rw [if_neg h6b] at h ⊢
                exact (Option.some.inj h).symm
            · rw [if_neg h6] at h ⊢
              by_cases h7 : ls.ch = '>'
              · rw [if_pos h7] at h ⊢
                exact (Option.some.inj h).symm
              · rw [if_neg h7] at h ⊢
                by_cases h8 : ls.ch = '<'
                · rw [if_pos h8] at h ⊢
                  exact (Option.some.inj h).symm
                · rw [if_neg h8] at h ⊢
                  by_cases h9 : ls.ch = '('
                  · rw [if_pos h9] at h ⊢
                    exact (Option.some.inj h).symm
                  · rw [if_neg h9] at h ⊢
                    by_cases h10 : ls.ch = ')'
                    · rw [if_pos h10] at h ⊢
                      exact (Option.some.inj h).symm
                    · rw [if_neg h10] at h ⊢
                      by_cases h11 : ls.ch = '\x7b'
                      · rw [if_pos h11] at h ⊢
                        exact (Option.some.inj h).symm
                      · rw [if_neg h11] at h ⊢
                        by_cases h12 : ls.ch = '\x7d'
                        · rw [if_pos h12] at h ⊢
                          exact (Option.some.inj h).symm
                        · rw [if_neg h12] at h ⊢
                          by_cases h13 : ls.ch = '['
                          · rw [if_pos h13] at h ⊢
                            exact (Option.some.inj h).symm
                          · rw [if_neg h13] at h ⊢
                            by_cases h14 : ls.ch = ']'
                            · rw [if_pos h14] at h ⊢
                              exact (Option.some.inj h).symm
                            · rw [if_neg h14] at h ⊢
                              by_cases h15 : ls.ch = ','
                              · rw [if_pos h15] at h ⊢
                                exact (Option.some.inj h).symm
                              · rw [if_neg h15] at h ⊢
                                by_cases h16 : ls.ch = ';'
                                · rw [if_pos h16] at h ⊢
                                  exact (Option.some.inj h).symm
                                · rw [if_neg h16] at h ⊢
                                  by_cases h17 : ls.ch = '"'
                                  · rw [if_pos h17] at h ⊢
                                    obtain ⟨sl, hs, hp⟩ := Option.map_eq_some'.mp h
                                    rw [readStringChecked_some hs] at hp
                                    exact hp.symm
                                  · rw [if_neg h17] at h ⊢
                                    by_cases h18 : ls.ch = '\x00'
                                    · rw [if_pos h18] at h ⊢
                                      exact (Option.some.inj h).symm
                                    · rw [if_neg h18] at h ⊢
                                      by_cases hic : isChar ls.ch
                                      · rw [if_pos hic] at h ⊢
                                        obtain ⟨sl, hs, hp⟩ := Option.map_eq_some'.mp h
                                        rw [readIdentifierChecked_some hs] at hp
                                        exact hp.symm
                                      · rw [if_neg hic] at h ⊢
                                        by_cases hin : isNum ls.ch
                                        · rw [if_pos hin] at h ⊢
                                          obtain ⟨sl, hs, hp⟩ := Option.map_eq_some'.mp h
                                          rw [readIntChecked_some hs] at hp
                                          exact hp.symm
                                        · rw [if_neg hin] at h ⊢
                                          exact (Option.some.inj h).symm

theorem NextTokenChecked_some {l : Lexer} {p : Token × Lexer}
    (h : NextTokenChecked l = some p) : p = NextToken l :=
  nextTokenCoreChecked_some h

theorem skipSpaces_of_ch0 {l : Lexer} (hch : l.ch = '\x00') : skipSpaces l = l := by
  unfold skipSpaces
  have hsp : isSpace l.ch = false := by rw [hch]; decide
  cases hn : lexMeasure l with
  | zero => rfl
  | succ m => simp [skipSpacesF, hsp]

set_option maxHeartbeats 1600000 in
theorem nextTokenCoreChecked_ch0 {ls : Lexer} (hch : ls.ch = '\x00') :
    nextTokenCoreChecked ls
      = some ({ type := TokenType.EOF, literal := "" }, readChar ls) := by
  unfold nextTokenCoreChecked
  rw [if_neg (hch ▸ (by decide) : ¬(ls.ch = '='))]
  rw [if_neg (hch ▸ (by decide) : ¬(ls.ch = '+'))]
  rw [if_neg (hch ▸ (by decide) : ¬(ls.ch = '-'))]
  rw [if_neg (hch ▸ (by decide) : ¬(ls.ch = '*'))]
  rw [if_neg (hch ▸ (by decide) : ¬(ls.ch = '/'))]
  rw [if_neg (hch ▸ (by decide) : ¬(ls.ch = '!'))]
  rw [if_neg (hch ▸ (by decide) : ¬(ls.ch = '>'))]
  rw [if_neg (hch ▸ (by decide) : ¬(ls.ch = '<'))]
  rw [if_neg (hch ▸ (by decide) : ¬(ls.ch = '('))]
  rw [if_neg (hch ▸ (by decide) : ¬(ls.ch = ')'))]
  rw [if_neg (hch ▸ (by decide) : ¬(ls.ch = '\x7b'))]
  rw [if_neg (hch ▸ (by decide) : ¬(ls.ch = '\x7d'))]
  rw [if_neg (hch ▸ (by decide) : ¬(ls.ch = '['))]
  rw [if_neg (hch ▸ (by decide) : ¬(ls.ch = ']'))]
  rw [if_neg (hch ▸ (by decide) : ¬(ls.ch = ','))]
  rw [if_neg (hch ▸ (by decide) : ¬(ls.ch = ';'))]
  rw [if_neg (hch ▸ (by decide) : ¬(ls.ch = '"'))]
  rw [if_pos hch]

theorem NextTokenChecked_atEnd {l : Lexer} (hg : lexGood l)
    (hend : l.input.length ≤ l.position) :
    NextTokenChecked l
      = some ({ type := TokenType.EOF, literal := "" }, readChar l) := by
  have hch : l.ch = '\x00' := good_ch_of_end hg hend
  show nextTokenCoreChecked (skipSpaces l) = _
  rw [skipSpaces_of_ch0 hch, nextTokenCoreChecked_ch0 hch]

theorem lexRunChecked_some (inp : List Char) : ∀ (n : Nat) (l : Lexer),
    lexRunChecked inp n = some l → l = lexStateN inp n := by
  intro n
  induction n with
  | zero => intro l h; exact (Option.some.inj h).symm
  | succ n ih =>
      intro l h
      unfold lexRunChecked at h
      split at h
      · exact Option.noConfusion h
      · next l0 heq =>
          obtain ⟨p, hp, h2⟩ := Option.map_eq_some'.mp h
          rw [← h2, NextTokenChecked_some hp, ih l0 heq]
          rfl

theorem lexNthChecked_some {inp : List Char} {n : Nat} {t : Token}
    (h : lexNthChecked inp n = some t) : t = lexNth inp n := by
  unfold lexNthChecked at h
  split at h
  · exact Option.noConfusion h
  · next l heq =>
      obtain ⟨p, hp, h2⟩ := Option.map_eq_some'.mp h
      rw [← h2, NextTokenChecked_some hp, lexRunChecked_some inp n l heq]
      rfl

theorem lexRunChecked_succ_of_nth {inp : List Char} {k : Nat} {t : Token}
    (h : lexNthChecked inp k = some t) :
    lexRunChecked inp (k + 1) = some (lexStateN inp (k + 1)) := by
  unfold lexNthChecked at h
  split at h
  · exact Option.noConfusion h
  · next l heq =>
      obtain ⟨p, hp, h2⟩ := Option.map_eq_some'.mp h
      have e1 : p = NextToken l := NextTokenChecked_some hp
      have e2 : l = lexStateN inp k := lexRunChecked_some inp k l heq
      unfold lexRunChecked
      rw [heq]
      show (NextTokenChecked l).map (fun r => r.2) = some (lexStateN inp (k + 1))
      rw [hp, e1, e2]
      rfl

/-! ## Claim theorems: scanner -/

/-- C6 (counterexample): the claim that once `NextToken` has returned an
`EOF` token every subsequent call returns `EOF` again fails for the
two-byte input `0x00 'a'`: the Go sentinel conflates an embedded NUL
byte with end of input, so call 1 returns `EOF` while call 2 returns the
identifier token `a`. -/
theorem C6_eof_idempotence_counterexample :
    (lexNth ['\x00', 'a'] 0).type = TokenType.EOF ∧
      (lexNth ['\x00', 'a'] 1).type ≠ TokenType.EOF := by
  constructor
  · rfl
  · decide

/-- C6 (amended): each `NextToken` call returns at most one token (one
token when it returns; `none` models a Go slice-bounds panic, on which
the call never returns); for every input, every call from number
`input length + 1` onward that returns at all returns `EOF` (so a
panic-free scan reaches an `EOF` token after at most `length + 1`
calls); for inputs containing no NUL byte, once a call has returned
`EOF` the next call returns — it cannot panic — and returns `EOF`
again; and the panic is real: on the input consisting of the single
byte `"` the very first call panics (`readString` slices
`input[1:2]` on a length-1 input), so no call ever returns `EOF`. -/
theorem C6_scanner_eof_amended :
    (∀ (inp : List Char) (k : Nat), inp.length ≤ k →
        ∀ t : Token, lexNthChecked inp k = some t → t.type = TokenType.EOF)
    ∧ (∀ inp : List Char, (∀ c ∈ inp, c ≠ '\x00') →
        ∀ (k : Nat) (t : Token), lexNthChecked inp k = some t →
          t.type = TokenType.EOF →
            ∃ t2 : Token, lexNthChecked inp (k + 1) = some t2 ∧
              t2.type = TokenType.EOF)
    ∧ NextTokenChecked (lexerNew ['"']) = none := by
  refine ⟨?_, ?_, rfl⟩
  · intro inp k hk t ht
    rw [lexNthChecked_some ht]
    exact lexNth_eof_at inp k hk
  · intro inp hnul k t hsome heof
    have ht : t = lexNth inp k := lexNthChecked_some hsome
    rw [ht] at heof
    obtain ⟨hg2, hend2⟩ := lexStateN_succ_atEnd hnul heof
    have hrun : lexRunChecked inp (k + 1) = some (lexStateN inp (k + 1)) :=
      lexRunChecked_succ_of_nth hsome
    refine ⟨{ type := TokenType.EOF, literal := "" }, ?_, rfl⟩
    unfold lexNthChecked
    rw [hrun]
    show (NextTokenChecked (lexStateN inp (k + 1))).map (fun r => r.1)
        = some { type := TokenType.EOF, literal := "" }
    rw [NextTokenChecked_atEnd hg2 hend2]
    rfl

/-- C6 witness: the amended theorem evaluated on the input `"ab"`:
call 3 (index 2) of the checked scanner returns and its token is `EOF`,
and the call after an `EOF` return returns `EOF` again. -/
theorem C6_scanner_eof_amended_witness :
    ({ type := TokenType.EOF, literal := "" } : Token).type = TokenType.EOF ∧
      ∃ t2 : Token, lexNthChecked ("ab".toList) 3 = some t2 ∧
        t2.type = TokenType.EOF :=
  ⟨C6_scanner_eof_amended.1 ("ab".toList) 2 (by decide)
      { type := TokenType.EOF, literal := "" } rfl,
    C6_scanner_eof_amended.2.1 ("ab".toList) (by decide) 2
      { type := TokenType.EOF, literal := "" } rfl rfl⟩

/-- C7 (code bug): scanning the empty string literal `""` does not yield
an empty `STRING` literal: the do-while loop of `readString` advances
once before testing, so the closing quote is skipped and returned as the
literal text.  On the input `""x` the scanner even consumes past the
closing quote, returning the literal `"x`. -/
theorem C7_empty_string_literal_bug :
    (NextToken (lexerNew ("\"\"".toList))).1
        = { type := TokenType.STRING, literal := "\"" } ∧
      ("\"" : String) ≠ "" ∧
      (NextToken (lexerNew ("\"\"x".toList))).1
        = { type := TokenType.STRING, literal := "\"x" } := by
  refine ⟨rfl, by decide, rfl⟩

/-- C10: the scanner never reads out of bounds in the `==`/`!=`
lookahead branches: whenever `peekChar` returns a non-sentinel
character, `readPosition < length input`, so the upper bound
`readPosition + 1` of the slice `input[position : readPosition+1]`
never exceeds the input length. -/
theorem C10_no_out_of_bounds :
    ∀ l : Lexer, peekChar l ≠ '\x00' → l.readPosition + 1 ≤ l.input.length := by
  intro l h
  unfold peekChar at h
  split at h
  · exact absurd rfl h
  · omega

/-- C10 witness: the bound evaluated on the scanner freshly opened over
the input `"=="`. -/
theorem C10_no_out_of_bounds_witness :
    peekChar (lexerNew ['=', '=']) ≠ '\x00' ∧
      (lexerNew ['=', '=']).readPosition + 1 ≤ (lexerNew ['=', '=']).input.length :=
  ⟨by decide, C10_no_out_of_bounds _ (by decide)⟩

/-! ## Parser lemmas -/

/-- Once the scanner is past the end of input and the peek token is
already `EOF`, the `expectPeek`-driven skip loop of the let/return
parsers never exits: `expectPeek SEMICOLON` keeps failing against `EOF`
(appending an error each time) and the scanner keeps producing `EOF`. -/
theorem skipLoop_diverge : ∀ (n : Nat) (p : PState),
    p.peekToken.type = TokenType.EOF → lexGood p.l →
      p.l.input.length ≤ p.l.position → skipToSemicolonLoop n p = none := by
  intro n
  induction n with
  | zero => intro p _ _ _; rfl
  | succ n ih =>
      intro p hpeek hg he
      have hne : ¬(p.peekToken.type = TokenType.SEMICOLON) := by
        rw [hpeek]; decide
      have hstep := nextToken_atEnd hg he
      simp only [skipToSemicolonLoop, expectPeek, if_neg hne]
      apply ih
      · show (NextToken p.l).1.type = TokenType.EOF
        rw [hstep]
      · show lexGood (NextToken p.l).2
        rw [hstep]; exact readChar_good _
      · show (NextToken p.l).2.input.length ≤ (NextToken p.l).2.position
        rw [hstep]
        show p.l.input.length ≤ p.l.readPosition
        have := hg.1
        omega

/-- C2 (code bug theorem): on the input `"let x = 5"` (no terminating
semicolon) the parse never terminates: for every fuel bound the fueled
`ParseProgram` fails to finish — `ParseLetStatment`'s skip loop spins at
end of input. -/
theorem C2_parse_nontermination :
    ∀ fuel : Nat, runParser "let x = 5" fuel = none := by
  intro fuel
  cases fuel with
  | zero => rfl
  | succ n =>
      have hskip : ∀ m, skipToSemicolonLoop m
          (expectPeek (expectPeek (parserNew (lexerNew ("let x = 5".toList)))
            TokenType.IDENT).2 TokenType.ASSIGN).2 = none := by
        intro m
        cases m with
        | zero => rfl
        | succ m2 =>
            exact skipLoop_diverge m2
              (pNextToken (expectPeek
                (expectPeek (expectPeek (parserNew (lexerNew ("let x = 5".toList)))
                  TokenType.IDENT).2 TokenType.ASSIGN).2 TokenType.SEMICOLON).2)
              rfl ⟨rfl, rfl⟩ (by decide)
      have eS : ∀ m, ParseStatement m (parserNew (lexerNew ("let x = 5".toList))) = none := by
        intro m
        have e : ParseStatement m (parserNew (lexerNew ("let x = 5".toList))) =
            (match (match skipToSemicolonLoop m
                (expectPeek (expectPeek (parserNew (lexerNew ("let x = 5".toList)))
                  TokenType.IDENT).2 TokenType.ASSIGN).2 with
              | Option.none => Option.none
              | some p3 => some (some (Stmt.letS { type := TokenType.LET, literal := "let" }
                  ⟨{ type := TokenType.IDENT, literal := "x" }, "x"⟩ none), p3)) with
              | Option.none => Option.none
              | some (Option.none, p1) => some (PStmt.nilLet, p1)
              | some (some s, p1) => some (PStmt.valid s, p1)) := rfl
        rw [e, hskip m]
      show ParseProgram (n + 1) (parserNew (lexerNew ("let x = 5".toList))) = none
      have e2 : ParseProgram (n + 1) (parserNew (lexerNew ("let x = 5".toList))) =
          (match ParseStatement n (parserNew (lexerNew ("let x = 5".toList))) with
            | Option.none => Option.none
            | some (st, p1) =>
                match ParseProgram n (pNextToken p1) with
                | Option.none => Option.none
                | some (rest, p2) => some (st :: rest, p2)) := rfl
      rw [e2, eS n]

/-- C1 (code bug theorem): `parseExpression` performs no precedence
climbing — it only invokes the prefix handler for the current token and
has no infix loop, and only `IDENT` has a handler — so `"a + b + c"`
parses as three identifier expression statements (the `+` tokens yield
statements with no expression) and the program renders as `"abc"`, not
`"((a + b) + c)"`; likewise `"a + b * c"` renders as `"abc"`, not
`"(a + (b * c))"`. -/
theorem C1_no_precedence_climbing :
    (runParser "a + b + c" 20).map (fun r => programString r.1) = some (some "abc") ∧
      (runParser "a + b * c" 20).map (fun r => programString r.1) = some (some "abc") ∧
      ("abc" : String) ≠ "((a + b) + c)" ∧ ("abc" : String) ≠ "(a + (b * c))" :=
  ⟨rfl, rfl, by decide, by decide⟩

/-- C3 (code bug theorem): parsing `"let x = 5;"` yields a
`LetStatement` with name `"x"` but a nil `Value` (the right-hand side is
skipped, never parsed), and one error is recorded (the skip loop's
`expectPeek SEMICOLON` first fails against the `INT` token `5`) — not an
integer-literal value `5` with zero errors as claimed. -/
theorem C3_let_statement_divergence :
    (runParser "let x = 5;" 10).map (fun r => (r.1, r.2.errors))
      = some ([PStmt.valid (Stmt.letS { type := TokenType.LET, literal := "let" }
                  ⟨{ type := TokenType.IDENT, literal := "x" }, "x"⟩ none)],
              ["expected next token to be SEMICOLON, got INT instead"]) := rfl

/-- C4 (code bug theorem): when no prefix handler is registered for the
current token's category, `parseExpression` returns no expression and
leaves the parser state — in particular the error list — completely
unchanged: no "no prefix parse function" error is recorded.  Evaluated
on the input `"5"` (`INT` has no handler): the statement carries no
expression and the error list stays empty. -/
theorem C4_no_prefix_no_error :
    (∀ (p : PState) (prec : Nat), prefixFnFor p.curToken.type = none →
        parseExpression p prec = (none, p)) ∧
      (runParser "5" 10).map (fun r => (r.1, r.2.errors))
        = some ([PStmt.valid (Stmt.exprS { type := TokenType.INT, literal := "5" } none)],
                []) := by
  constructor
  · intro p prec h
    unfold parseExpression
    rw [h]
  · rfl

/-- C4 witness: the first conjunct applied to the parser state freshly
opened over `"5"`, whose current token is `INT`. -/
theorem C4_no_prefix_no_error_witness :
    prefixFnFor (parserNew (lexerNew ("5".toList))).curToken.type = none ∧
      parseExpression (parserNew (lexerNew ("5".toList))) LOWEST
        = (none, parserNew (lexerNew ("5".toList))) :=
  ⟨rfl, C4_no_prefix_no_error.1 (parserNew (lexerNew ("5".toList))) LOWEST rfl⟩

/-- C5: parsing `"let x 5;"` (missing `=`) records exactly the error
"expected next token to be ASSIGN, got INT instead", the let construct's
statement parser returns nil (the typed-nil interface value appears in
the statement list), and `ParseProgram` terminates normally, continuing
with the following tokens (the `5` becomes an expression statement) and
returning the program plus the accumulated error list. -/
theorem C5_missing_assign_error :
    (runParser "let x 5;" 10).map (fun r => (r.1, r.2.errors))
      = some ([PStmt.nilLet,
               PStmt.valid (Stmt.exprS { type := TokenType.INT, literal := "5" } none)],
              ["expected next token to be ASSIGN, got INT instead"]) := rfl

/-- A parsed statement never carries a let value or a return value: the
source replaces both expression parses with the skip-to-semicolon loop. -/
def noExprValues (st : PStmt) : Prop :=
  (∀ t n v, st = PStmt.valid (Stmt.letS t n v) → v = none) ∧
    (∀ t v, st = PStmt.valid (Stmt.returnS t v) → v = none)

theorem noExprValues_nilLet : noExprValues PStmt.nilLet :=
  ⟨fun _ _ _ h => PStmt.noConfusion h, fun _ _ h => PStmt.noConfusion h⟩

theorem noExprValues_exprS (t : Token) (e : Option Expr) :
    noExprValues (PStmt.valid (Stmt.exprS t e)) := by
  constructor
  · intro t' n' v' h
    simp at h
  · intro t' v' h
    simp at h

theorem noExprValues_letS (t : Token) (n : Identifier) :
    noExprValues (PStmt.valid (Stmt.letS t n none)) := by
  constructor
  · intro t' n' v' h
    simp only [PStmt.valid.injEq, Stmt.letS.injEq] at h
    exact h.2.2.symm
  · intro t' v' h
    simp at h

theorem noExprValues_returnS (t : Token) :
    noExprValues (PStmt.valid (Stmt.returnS t none)) := by
  constructor
  · intro t' n' v' h
    simp at h
  · intro t' v' h
    simp only [PStmt.valid.injEq, Stmt.returnS.injEq] at h
    exact h.2.symm

theorem ParseLetStatment_shape (fuel : Nat) (p : PState) :
    ∀ r, ParseLetStatment fuel p = some r →
      r.1 = none ∨ ∃ t n, r.1 = some (Stmt.letS t n none) := by
  intro r h
  simp only [ParseLetStatment] at h
  split at h
  · cases h; exact Or.inl rfl
  · split at h
    · cases h; exact Or.inl rfl
    · split at h
      · exact Option.noConfusion h
      · cases h; exact Or.inr ⟨_, _, rfl⟩

theorem ParseReturnStatement_shape (fuel : Nat) (p : PState) :
    ∀ r, ParseReturnStatement fuel p = some r →
      ∃ t, r.1 = Stmt.returnS t none := by
  intro r h
  simp only [ParseReturnStatement] at h
  split at h
  · exact Option.noConfusion h
  · cases h; exact ⟨_, rfl⟩

theorem ParseStatement_values (fuel : Nat) (p : PState) :
    ∀ r, ParseStatement fuel p = some r → noExprValues r.1 := by
  intro r h
  unfold ParseStatement at h
  split at h
  · -- LET dispatch
    split at h
    · exact Option.noConfusion h
    · next heq =>
        cases h
        exact noExprValues_nilLet
    · next s p1 heq =>
        cases h
        rcases ParseLetStatment_shape fuel p _ heq with h1 | ⟨t, n, h2⟩
        · exact absurd h1 (by simp)
        · obtain rfl : s = Stmt.letS t n none := by
            have := h2
            simpa using this
          exact noExprValues_letS t n
  · -- RETURN dispatch
    split at h
    · exact Option.noConfusion h
    · next s p1 heq =>
        cases h
        obtain ⟨t, h2⟩ := ParseReturnStatement_shape fuel p _ heq
        obtain rfl : s = Stmt.returnS t none := h2
        exact noExprValues_returnS t
  · -- expression statement
    cases h
    exact noExprValues_exprS _ _

theorem ParseProgram_values : ∀ (fuel : Nat) (p : PState) (r),
    ParseProgram fuel p = some r → ∀ st ∈ r.1, noExprValues st := by
  intro fuel
  induction fuel with
  | zero =>
      intro p r h st hst
      unfold ParseProgram at h
      split at h
      · cases h; simp at hst
      · exact Option.noConfusion h
  | succ n ih =>
      intro p r h st hst
      unfold ParseProgram at h
      split at h
      · cases h; simp at hst
      · split at h
        · exact Option.noConfusion h
        · next st1 p1 heq =>
            split at h
            · exact Option.noConfusion h
            · next rest p2 heq2 =>
                cases h
                rcases List.mem_cons.mp hst with rfl | hmem
                · exact ParseStatement_values n p _ heq
                · exact ih (pNextToken p1) _ heq2 st hmem

/-- C9: on every input on which `ParseProgram` terminates, every
`LetStatement` in the returned program has a nil `Value` and every
`ReturnStatement` a nil `ReturnValue` (both expression parses are
replaced by the skip-to-semicolon loop), and such statements render as
`"let <name> = ;"` and `"return ;"` regardless of the source text. -/
theorem C9_let_return_values_nil :
    (∀ (input : String) (fuel : Nat) (r : List PStmt × PState),
        runParser input fuel = some r → ∀ st ∈ r.1,
          (∀ t n v, st = PStmt.valid (Stmt.letS t n v) → v = none) ∧
            (∀ t v, st = PStmt.valid (Stmt.returnS t v) → v = none))
    ∧ (∀ (t : Token) (name : Identifier), t.literal = "let" →
        stmtString (Stmt.letS t name none) = "let " ++ name.value ++ " = ;")
    ∧ (∀ t : Token, t.literal = "return" →
        stmtString (Stmt.returnS t none) = "return ;") := by
  refine ⟨fun input fuel r h => ParseProgram_values fuel _ r h, ?_, ?_⟩
  · intro t name h
    show t.literal ++ " " ++ name.value ++ " = " ++ optExprString none ++ ";"
        = "let " ++ name.value ++ " = ;"
    rw [h]
    show "let" ++ " " ++ name.value ++ " = " ++ "" ++ ";" = "let " ++ name.value ++ " = ;"
    rw [String.append_empty, String.append_assoc ("let" ++ " " ++ name.value) " = " ";"]
    rfl
  · intro t h
    show t.literal ++ " " ++ optExprString none ++ ";" = "return ;"
    rw [h]
    rfl

/-- C9 witness: the invariant evaluated on the parse of
`"let x = 5;"` (its single statement is the let statement: value nil),
and both renderings at concrete tokens. -/
theorem C9_let_return_values_nil_witness :
    ((∀ t n v, PStmt.valid (Stmt.letS { type := TokenType.LET, literal := "let" }
          ⟨{ type := TokenType.IDENT, literal := "x" }, "x"⟩ none)
        = PStmt.valid (Stmt.letS t n v) → v = none) ∧
      (∀ t v, PStmt.valid (Stmt.letS { type := TokenType.LET, literal := "let" }
          ⟨{ type := TokenType.IDENT, literal := "x" }, "x"⟩ none)
        = PStmt.valid (Stmt.returnS t v) → v = none)) ∧
      stmtString (Stmt.letS { type := TokenType.LET, literal := "let" }
          ⟨{ type := TokenType.IDENT, literal := "x" }, "x"⟩ none)
        = "let " ++ "x" ++ " = ;" ∧
      stmtString (Stmt.returnS { type := TokenType.RETURN, literal := "return" } none)
        = "return ;" :=
  ⟨C9_let_return_values_nil.1 "let x = 5;" 10
      ((runParser "let x = 5;" 10).getD ([], parserNew (lexerNew [])))
      rfl
      (PStmt.valid (Stmt.letS { type := TokenType.LET, literal := "let" }
        ⟨{ type := TokenType.IDENT, literal := "x" }, "x"⟩ none))
      (List.mem_cons_self _ _),
    C9_let_return_values_nil.2.1 _ _ rfl,
    C9_let_return_values_nil.2.2 _ rfl⟩

/-- C8 (counterexample): `CallExpression.String` writes the node's own
token literal, not the rendering of the callee expression: a call node
whose token is the `(` token and whose callee is the identifier `add`
renders as `"(()"`, not `"add()"`. -/
theorem C8_call_render_counterexample :
    exprString (Expr.callE { type := TokenType.LPAREN, literal := "(" }
        (Expr.identE { type := TokenType.IDENT, literal := "add" } "add") [])
      = "(()" ∧
    exprString (Expr.identE { type := TokenType.IDENT, literal := "add" } "add")
        ++ "(" ++ String.intercalate ", " (exprStringList ([] : List Expr)) ++ ")"
      = "add()" ∧
    ("(()" : String) ≠ "add()" :=
  ⟨by decide, by decide, by decide⟩

/-- C8 (amended): the canonical renderings hold as claimed for let
(`"let <name> = <value>;"`), prefix (`"(<op><operand>)"`), infix
(`"(<left> <op> <right>)"`) and index (`"(<left>[<index>])"`) nodes; for
call nodes the rendering is `"<tok>(<a1>, <a2>, ...)"` where `<tok>` is
the call node's own token literal (not the rendering of the callee
expression). -/
theorem C8_render_forms_amended :
    (∀ (t : Token) (name : Identifier) (v : Expr), t.literal = "let" →
        stmtString (Stmt.letS t name (some v))
          = "let " ++ name.value ++ " = " ++ exprString v ++ ";")
    ∧ (∀ (t : Token) (op : String) (r : Expr),
        exprString (Expr.prefixE t op r) = "(" ++ op ++ exprString r ++ ")")
    ∧ (∀ (t : Token) (left : Expr) (op : String) (r : Expr),
        exprString (Expr.infixE t left op r)
          = "(" ++ exprString left ++ " " ++ op ++ " " ++ exprString r ++ ")")
    ∧ (∀ (t : Token) (f : Expr) (args : List Expr),
        exprString (Expr.callE t f args)
          = t.literal ++ "(" ++ String.intercalate ", " (exprStringList args) ++ ")")
    ∧ (∀ (t : Token) (left idx : Expr),
        exprString (Expr.indexE t left idx)
          = "(" ++ exprString left ++ "[" ++ exprString idx ++ "])") := by
  refine ⟨?_, ?_, ?_, ?_, ?_⟩
  · intro t name v h
    show t.literal ++ " " ++ name.value ++ " = " ++ optExprString (some v) ++ ";"
        = "let " ++ name.value ++ " = " ++ exprString v ++ ";"
    rw [h]
    rfl
  · intro t op r
    rw [exprString]
  · intro t left op r
    rw [exprString]
  · intro t f args
    rw [exprString]
  · intro t left idx
    rw [exprString]

/-- C8 witness: the let-rendering clause applied to the concrete let
statement `let x = 5;`. -/
theorem C8_render_forms_amended_witness :
    ({ type := TokenType.LET, literal := "let" } : Token).literal = "let" ∧
      stmtString (Stmt.letS { type := TokenType.LET, literal := "let" }
          ⟨{ type := TokenType.IDENT, literal := "x" }, "x"⟩
          (some (Expr.intLit { type := TokenType.INT, literal := "5" } 5)))
        = "let " ++ "x" ++ " = "
            ++ exprString (Expr.intLit { type := TokenType.INT, literal := "5" } 5) ++ ";" :=
  ⟨rfl, C8_render_forms_amended.1 _ _ _ rfl⟩

end SimpleInterp
